/-
Verification of the dengue-control MCDA scoring engine (repository "mapas").

The Python sources (src/scikit-criteria-demo.py, src/escenarios_prescriptivos.py)
are shallowly embedded below:
  * numbers are modelled as rationals (ℚ),
  * Python strings as Lean String / List Char,
  * dictionaries as association lists in insertion order,
  * fallible code (check_condition's ValueError) as Except String,
  * the regular-expression fragments of parse_threshold as hand-rolled
    deterministic matchers over List Char (each pattern's backtracking is
    vacuous because the character classes involved are pairwise disjoint),
  * numpy's argsort as a stable ascending sort of (index, score) pairs,
    i.e. sorting by (score, index) lexicographically.
-/
import Mathlib

namespace Mapas

/-! ### String utilities shared by the embedded functions -/

/-- Python's str.strip: drop whitespace from both ends. -/
def pyStrip (l : List Char) : List Char :=
  ((l.dropWhile Char.isWhitespace).reverse.dropWhile Char.isWhitespace).reverse

/-- The unicode normalisation of parse_threshold:
`umbral_str.replace('≤', '<=').replace('≥', '>=')`. -/
def normalizeUnicode : List Char → List Char
  | [] => []
  | c :: rest =>
    if c = '≤' then '<' :: '=' :: normalizeUnicode rest
    else if c = '≥' then '>' :: '=' :: normalizeUnicode rest
    else c :: normalizeUnicode rest

/-- Value of a digit string, most significant first. -/
def digitsToNat (l : List Char) : Nat :=
  l.foldl (fun acc c => acc * 10 + (c.toNat - Char.toNat '0')) 0

/-- float(d1 ++ "." ++ d2): the number a captured group such as "70", "70."
or "6.5" denotes (the fractional part is dropped when empty so that integral
values stay kernel-computable). -/
def numVal (d1 d2 : List Char) : ℚ :=
  if d2 = [] then (digitsToNat d1 : ℚ)
  else (digitsToNat d1 : ℚ) + (digitsToNat d2 : ℚ) / (10 : ℚ) ^ d2.length

/-- The regex fragment `\d+\.?\d*` matched greedily at the head of `l`:
one or more digits, an optional dot, then any further digits. -/
def matchNumber (l : List Char) : Option ℚ :=
  if l.takeWhile Char.isDigit = [] then none
  else
    match l.dropWhile Char.isDigit with
    | d :: r2 =>
      if d = '.' then some (numVal (l.takeWhile Char.isDigit) (r2.takeWhile Char.isDigit))
      else some (numVal (l.takeWhile Char.isDigit) [])
    | [] => some (numVal (l.takeWhile Char.isDigit) [])

/-- `\s*`: skip a greedy run of whitespace. -/
def skipWs (l : List Char) : List Char := l.dropWhile Char.isWhitespace

/-- `re.search`: try the pattern at every position, leftmost match wins. -/
def re_search {α : Type} (pat : List Char → Option α) : List Char → Option α
  | [] => none
  | c :: rest =>
    match pat (c :: rest) with
    | some r => some r
    | none => re_search pat rest

/-- Pattern 1 of parse_threshold, `([<>])\s*=\s*(\d+\.?\d*)`, tried at one
position, with its extractor `(m.group(1) + "=", float(m.group(2)))`. -/
def pat1 : List Char → Option (String × ℚ)
  | c :: rest =>
    if c = '<' ∨ c = '>' then
      match skipWs rest with
      | '=' :: rest2 => (matchNumber (skipWs rest2)).map fun v => (String.mk [c, '='], v)
      | _ => none
    else none
  | [] => none

/-- Pattern 2 of parse_threshold, `([<>])\s*(\d+\.?\d*)`, tried at one
position, with its extractor `(m.group(1), float(m.group(2)))`. -/
def pat2 : List Char → Option (String × ℚ)
  | c :: rest =>
    if c = '<' ∨ c = '>' then
      (matchNumber (skipWs rest)).map fun v => (String.mk [c], v)
    else none
  | [] => none

/-- Pattern 3 of parse_threshold, `\(([<>]=?)\s*(\d+\.?\d*)`, tried at one
position.  Its extractor is `(m.group(1) + ("=" if "=" in m.group(1) else ""),
float(m.group(2)))` — so a two-character group "<="/" >=" yields the
three-character operator "<=="/">==", exactly as the source does. -/
def pat3 : List Char → Option (String × ℚ)
  | '(' :: c :: rest =>
    if c = '<' ∨ c = '>' then
      match rest with
      | '=' :: rest2 => (matchNumber (skipWs rest2)).map fun v => (String.mk [c, '=', '='], v)
      | _ => (matchNumber (skipWs rest)).map fun v => (String.mk [c], v)
    else none
  | _ => none

/-- The operator normalisation block inside parse_threshold (the
`len(op) == 1` branch is `pass`, and no `else` branch exists, so every
other operator string is returned unchanged). -/
def normalizar_op (op : String) : String :=
  if op = "<=" ∨ op = "≤" then "<="
  else if op = ">=" ∨ op = "≥" then ">="
  else op

/-- parse_threshold(umbral_str) from src/scikit-criteria-demo.py: the empty
string is rejected up front; the string is stripped, unicode ≤/≥ are
normalised to ASCII, the three operator patterns are tried in priority
order, and otherwise the first bare number is read with a default ">=". -/
def parse_threshold (s : List Char) : Option (String × ℚ) :=
  if s = [] then none
  else
    let t := normalizeUnicode (pyStrip s)
    match re_search pat1 t with
    | some (op, v) => some (normalizar_op op, v)
    | none =>
      match re_search pat2 t with
      | some (op, v) => some (normalizar_op op, v)
      | none =>
        match re_search pat3 t with
        | some (op, v) => some (normalizar_op op, v)
        | none =>
          match re_search matchNumber t with
          | some v => some (">=", v)
          | none => none

/-! ### check_condition -/

/-- check_condition(value, op, threshold): None compares as False before the
operator is inspected; an unsupported operator raises ValueError, modelled
as `Except.error`. -/
def check_condition (value : Option ℚ) (op : String) (threshold : ℚ) :
    Except String Bool :=
  match value with
  | none => .ok false
  | some v =>
    if op = "<" then .ok (decide (v < threshold))
    else if op = "<=" then .ok (decide (v ≤ threshold))
    else if op = ">" then .ok (decide (v > threshold))
    else if op = ">=" then .ok (decide (v ≥ threshold))
    else .error ("Operador no soportado: " ++ op)

/-! ### normalize_criterion -/

/-- `values.min()` of a nonempty numpy array (junk value 0 on []). -/
def listMin : List ℚ → ℚ
  | [] => 0
  | x :: xs => xs.foldl min x

/-- `values.max()` of a nonempty numpy array (junk value 0 on []). -/
def listMax : List ℚ → ℚ
  | [] => 0
  | x :: xs => xs.foldl max x

/-- normalize_criterion(values, maximize): min-max scaling to [0, 1];
a constant vector maps to np.ones_like(values). -/
def normalize_criterion (values : List ℚ) (maximize : Bool) : List ℚ :=
  if values.length = 0 then values
  else
    let min_val := listMin values
    let max_val := listMax values
    if max_val = min_val then values.map fun _ => 1
    else
      let normalized := values.map fun x => (x - min_val) / (max_val - min_val)
      if maximize then normalized else normalized.map fun x => 1 - x

/-! ### Strategy configuration and normalize_strategy_weights -/

/-- One row of a strategy's rule list: `{"indicator": ..., "weight": ...}`. -/
structure Rule where
  indicator : String
  weight : ℚ
deriving DecidableEq

/-- The inner loop of normalize_strategy_weights on one strategy's rules:
divide every weight by the total unless the total is exactly 0. -/
def normalize_weights (rules : List Rule) : List Rule :=
  let total := (rules.map Rule.weight).sum
  if total = 0 then rules
  else rules.map fun r => { r with weight := r.weight / total }

/-- normalize_strategy_weights over the whole strategies_config dictionary
(an association list in insertion order). -/
def normalize_strategy_weights (cfg : List (String × List Rule)) :
    List (String × List Rule) :=
  cfg.map fun p => (p.1, normalize_weights p.2)

/-! ### build_indicator_matrix -/

/-- Python dictionary lookup on an association list with unique keys. -/
def lookup {α : Type} (table : List (String × α)) (k : String) : Option α :=
  (table.find? fun p => p.1 == k).map Prod.snd

/-- One entry of the indicator_thresholds dictionary:
`{"op": ..., "threshold": ...}`. -/
structure ThresholdCfg where
  op : String
  threshold : ℚ
deriving DecidableEq

/-- One cell of build_indicator_matrix.  `rule_by_ind` is a dict
comprehension, so for a duplicated indicator the LAST rule wins — hence the
`reverse` before `find?`.  A ValueError escaping check_condition propagates. -/
def cellE (indicator_values : List (String × ℚ))
    (thresholds : Option (List (String × ThresholdCfg)))
    (rules : List Rule) (ind : String) : Except String ℚ :=
  match rules.reverse.find? (fun r => r.indicator == ind) with
  | none => .ok 0
  | some rule =>
    match lookup indicator_values ind with
    | none => .ok 0
    | some val =>
      match thresholds with
      | some ths =>
        match lookup ths ind with
        | some cfg =>
          match check_condition (some val) cfg.op cfg.threshold with
          | .ok true => .ok rule.weight
          | .ok false => .ok 0
          | .error e => .error e
        | none => .ok rule.weight
      | none => .ok rule.weight

/-- One row of build_indicator_matrix: the cells for every indicator column,
left to right (the first ValueError raised wins, as in Python). -/
def buildRowE (indicator_values : List (String × ℚ))
    (thresholds : Option (List (String × ThresholdCfg)))
    (rules : List Rule) : List String → Except String (List ℚ)
  | [] => .ok []
  | ind :: rest =>
    match cellE indicator_values thresholds rules ind,
        buildRowE indicator_values thresholds rules rest with
    | .ok c, .ok r => .ok (c :: r)
    | .error e, _ => .error e
    | .ok _, .error e => .error e

/-- The strategy loop of build_indicator_matrix. -/
def buildRowsE (indicator_values : List (String × ℚ))
    (thresholds : Option (List (String × ThresholdCfg)))
    (indicators : List String) :
    List (String × List Rule) → Except String (List (List ℚ))
  | [] => .ok []
  | (_, rules) :: rest =>
    match buildRowE indicator_values thresholds rules indicators,
        buildRowsE indicator_values thresholds indicators rest with
    | .ok row, .ok rows => .ok (row :: rows)
    | .error e, _ => .error e
    | .ok _, .error e => .error e

/-- build_indicator_matrix(indicator_values, strategies_config, indicators,
indicator_thresholds): the matrix and the strategy names, or the first
ValueError check_condition raised. -/
def build_indicator_matrix (indicator_values : List (String × ℚ))
    (cfg : List (String × List Rule)) (indicators : List String)
    (thresholds : Option (List (String × ThresholdCfg))) :
    Except String (List (List ℚ) × List String) :=
  match buildRowsE indicator_values thresholds indicators cfg with
  | .ok rows => .ok (rows, cfg.map Prod.fst)
  | .error e => .error e

/-- `compliance = indicator_matrix.sum(axis=1)` from build_mcda_matrix. -/
def compliance_of (matrix : List (List ℚ)) : List ℚ :=
  matrix.map List.sum

/-! ### Response-type classification and urgency multipliers -/

/-- ESTRATEGIA_TIPO_RESPUESTA: the fixed taxonomy table, in insertion
order. -/
def ESTRATEGIA_TIPO_RESPUESTA : List (String × String) := [
  ("Aplicar adulticidas químicos como malatión o deltametrina para el control rápido del vector adulto en espacios abiertos.", "inmediata"),
  ("Implementar rápidamente protocolos de triage y fortalecer la capacitación del personal de salud para el manejo clínico del dengue.", "inmediata"),
  ("Aplicar larvicidas químicos en criaderos específicos de gran volumen donde no es viable el control físico, garantizando seguridad ambiental.", "activa"),
  ("Aplicar métodos biológicos para el control larvario del vector, incluyendo el uso de peces larvívoros y Bacillus thuringiensis.", "activa"),
  ("Implementar acciones de control físico en el entorno domiciliario y comunitario para reducir o eliminar criaderos del vector.", "activa"),
  ("Realizar identificación focalizada de criaderos mediante inspección directa y herramientas de georreferenciación.", "activa"),
  ("Fomentar el uso de medidas de protección individual, como repelente y barreras físicas, especialmente en grupos de riesgo.", "activa"),
  ("Promover prácticas preventivas sostenibles mediante campañas educativas, cambio de comportamiento social y vigilancia participativa.", "preventiva"),
  ("Difundir mensajes preventivos inmediatos a través de canales como SMS, redes sociales y altavoces en zonas de brote.", "preventiva"),
  ("Fortalecer la percepción de riesgo del dengue y promover prácticas preventivas comunitarias mediante información, educación y comunicación.", "preventiva"),
  ("Fortalecer la prevención individual frente al dengue mediante el uso de vacunas aprobadas en población objetivo según lineamientos nacionales.", "preventiva"),
  ("Articular esfuerzos con los sectores de agua, saneamiento, educación y servicios públicos para acciones preventivas sostenibles.", "coordinacion"),
  ("Fortalecer la articulación institucional para asegurar la continuidad de las acciones de control y facilitar la entrada a predios.", "coordinacion"),
  ("Fortalecer la sostenibilidad del programa de control del dengue mediante inversión continua, alianzas y gestión de recursos.", "coordinacion"),
  ("Utilizar datos meteorológicos y modelos de alerta temprana para anticipar condiciones favorables al vector.", "monitoreo"),
  ("Utilizar tecnologías innovadoras para el monitoreo y control focalizado del vector, como drones, sensores remotos o trampas inteligentes.", "monitoreo"),
  ("Monitorear condiciones climáticas y gestionar escorrentías o acumulaciones de agua que favorezcan criaderos.", "monitoreo"),
  ("Implementar estrategias de control vectorial basadas en biotecnología, como la liberación de mosquitos Wolbachia o técnica del insecto estéril.", "monitoreo"),
  ("Implementar programas de diagnóstico oportuno, tratamiento adecuado y acompañamiento a pacientes con dengue.", "monitoreo")]

/-- MULTIPLICADORES_URGENCIA: the 4×5 severity table. -/
def MULTIPLICADORES_URGENCIA : List (String × List (String × ℚ)) := [
  ("bajo_riesgo", [("inmediata", 0.2), ("activa", 0.5), ("preventiva", 1.8),
    ("coordinacion", 1.5), ("monitoreo", 1.7)]),
  ("riesgo_moderado", [("inmediata", 0.4), ("activa", 1.6), ("preventiva", 0.9),
    ("coordinacion", 1.2), ("monitoreo", 1.3)]),
  ("alto_riesgo", [("inmediata", 1.8), ("activa", 1.3), ("preventiva", 0.4),
    ("coordinacion", 1.0), ("monitoreo", 0.6)]),
  ("emergencia", [("inmediata", 2.5), ("activa", 0.9), ("preventiva", 0.2),
    ("coordinacion", 0.7), ("monitoreo", 0.3)])]

/-- CONTEXTO_ESCENARIO from the source (suffixed here to keep the
identifier inert): keyword→multiplier tables per situational context. -/
def CONTEXTO_ESCENARIOS : List (String × List (String × ℚ)) := [
  ("lluvias_intensas", [
    ("Monitorear condiciones climáticas y gestionar escorrentías", 1.8),
    ("Realizar identificación focalizada de criaderos", 1.5),
    ("Implementar acciones de control físico", 1.4),
    ("Utilizar datos meteorológicos", 1.6),
    ("Aplicar larvicidas químicos", 1.3)]),
  ("intermitencia_agua", [
    ("Implementar acciones de control físico", 1.7),
    ("Realizar identificación focalizada de criaderos", 1.6),
    ("Promover prácticas preventivas", 1.4),
    ("Fortalecer la percepción de riesgo", 1.3),
    ("Aplicar larvicidas químicos", 1.5),
    ("Articular esfuerzos con los sectores de agua", 1.6)]),
  ("movilidad_eventos", [
    ("Implementar programas de diagnóstico oportuno", 1.7),
    ("Implementar rápidamente protocolos de triage", 1.5),
    ("Difundir mensajes preventivos inmediatos", 1.6),
    ("Fomentar el uso de medidas de protección individual", 1.5),
    ("Utilizar tecnologías innovadoras para el monitoreo", 1.4)]),
  ("saturacion_operativa", [
    ("Fortalecer la articulación institucional", 1.7),
    ("Fortalecer la sostenibilidad del programa", 1.5),
    ("Aplicar adulticidas químicos", 1.4),
    ("Implementar rápidamente protocolos de triage", 1.6),
    ("Articular esfuerzos con los sectores", 1.5)]),
  ("agua_intermitente", [
    ("Implementar acciones de control físico", 6.0),
    ("Aplicar larvicidas químicos", 5.0),
    ("Articular esfuerzos con los sectores de agua", 4.5),
    ("Promover prácticas preventivas", 4.0),
    ("métodos biológicos", 0.3),
    ("adulticidas", 0.4)]),
  ("alta_densidad", [
    ("Aplicar adulticidas químicos", 6.0),
    ("Fomentar el uso de medidas de protección individual", 5.5),
    ("Implementar rápidamente protocolos de triage", 5.0),
    ("Implementar programas de diagnóstico oportuno", 4.5),
    ("métodos biológicos", 0.2),
    ("control físico", 0.4)]),
  ("construcciones", [
    ("Monitorear condiciones climáticas y gestionar escorrentías", 6.0),
    ("Utilizar tecnologías innovadoras", 5.5),
    ("Articular esfuerzos con los sectores", 5.0),
    ("Realizar identificación focalizada de criaderos", 4.5),
    ("métodos biológicos", 0.3),
    ("adulticidas", 0.5)]),
  ("dificil_acceso", [
    ("Utilizar tecnologías innovadoras", 6.0),
    ("Aplicar métodos biológicos", 5.5),
    ("Fortalecer la articulación institucional", 5.0),
    ("Promover prácticas preventivas", 4.5),
    ("adulticidas", 0.3),
    ("larvicidas químicos", 0.4)]),
  ("rechazo_comunitario", [
    ("Fortalecer la percepción de riesgo", 6.0),
    ("Difundir mensajes preventivos", 5.5),
    ("Promover prácticas preventivas", 5.0),
    ("Fortalecer la articulación institucional", 4.5),
    ("métodos biológicos", 0.3),
    ("adulticidas", 0.3),
    ("larvicidas", 0.4)]),
  ("historicamente_problematica", [
    ("Realizar identificación focalizada de criaderos", 6.0),
    ("Utilizar tecnologías innovadoras", 5.5),
    ("Utilizar datos meteorológicos", 5.0),
    ("métodos biológicos", 0.4),
    ("adulticidas", 0.3)]),
  ("bien_organizada", [
    ("Promover prácticas preventivas", 6.0),
    ("Fortalecer la percepción de riesgo", 5.5),
    ("Difundir mensajes preventivos", 5.0),
    ("métodos biológicos", 0.4),
    ("adulticidas", 0.2),
    ("larvicidas", 0.3)]),
  ("buena_infraestructura", [
    ("Utilizar tecnologías innovadoras", 6.0),
    ("Utilizar datos meteorológicos", 5.5),
    ("Monitorear condiciones climáticas", 5.0),
    ("métodos biológicos", 0.4),
    ("adulticidas", 0.2),
    ("larvicidas", 0.3)]),
  ("cobertura_agua_variable", [
    ("Promover prácticas preventivas", 6.0),
    ("Implementar acciones de control físico", 5.5),
    ("Articular esfuerzos con los sectores de agua", 5.0),
    ("métodos biológicos", 0.4),
    ("adulticidas", 0.2)]),
  ("transicion", [
    ("Fortalecer la sostenibilidad del programa", 6.0),
    ("Promover prácticas preventivas", 5.5),
    ("Realizar identificación focalizada de criaderos", 5.0),
    ("métodos biológicos", 0.4),
    ("adulticidas", 0.2),
    ("larvicidas", 0.3)])]

/-- `estrategia.strip()[:50].lower()`, the key used for the partial match. -/
def lower50 (s : String) : List Char :=
  ((pyStrip s.toList).take 50).map Char.toLower

/-- get_tipo_respuesta(estrategia): exact dictionary hit, else first partial
match on the lowercased 50-character prefix, else "activa". -/
def get_tipo_respuesta (estrategia : String) : String :=
  match ESTRATEGIA_TIPO_RESPUESTA.find? (fun p => p.1 == estrategia) with
  | some p => p.2
  | none =>
    match ESTRATEGIA_TIPO_RESPUESTA.find? (fun p => lower50 p.1 == lower50 estrategia) with
    | some p => p.2
    | none => "activa"

/-- Python's substring test `p in l` on lists of characters. -/
def isSubstr (p : List Char) : List Char → Bool
  | [] => p.isEmpty
  | c :: t => p.isPrefixOf (c :: t) || isSubstr p t

/-- The context dictionary the function works with:
`mult_contexto = CONTEXTO_ESCENARIO[contexto_escenario]` when the context is
given and is a key, `{}` otherwise. -/
def mult_contexto_of (contexto : Option String) : List (String × ℚ) :=
  match contexto with
  | none => []
  | some ctx => (lookup CONTEXTO_ESCENARIOS ctx).getD []

/-- The inner `for ctx_key, ctx_mult in mult_contexto.items(): ... break`
loop: the first keyword that is a case-insensitive substring of the strategy
name wins, else 1.0. -/
def contextMult (mult_contexto : List (String × ℚ)) (est_name : String) : ℚ :=
  match mult_contexto.find?
      (fun p => isSubstr (p.1.toList.map Char.toLower) (est_name.toList.map Char.toLower)) with
  | some p => p.2
  | none => 1

/-- aplicar_multiplicador_urgencia(scores, strategy_names, nivel_riesgo,
contexto_escenario).  `np.zeros_like(scores)` keeps entries past the zip at
0; the adjusted vector is divided by its maximum when that is positive. -/
def aplicar_multiplicador_urgencia (scores : List ℚ) (strategy_names : List String)
    (nivel_riesgo : String) (contexto : Option String) : List ℚ :=
  match lookup MULTIPLICADORES_URGENCIA nivel_riesgo with
  | none => scores
  | some multiplicadores =>
    let mult_contexto := mult_contexto_of contexto
    let pairs := scores.zip strategy_names
    let assigned := pairs.map fun p =>
      p.1 * (lookup multiplicadores (get_tipo_respuesta p.2)).getD 1
        * contextMult mult_contexto p.2
    let scores_ajustados := assigned ++ List.replicate (scores.length - pairs.length) 0
    if 0 < scores_ajustados.length then
      if 0 < listMax scores_ajustados then
        scores_ajustados.map fun x => x / listMax scores_ajustados
      else scores_ajustados
    else scores_ajustados

/-- The spec's per-strategy formula for the pre-normalisation adjusted
score: base score × severity multiplier (by response-type tag) × context
multiplier (first matching keyword, else 1). -/
def adjusted_raw (scores : List ℚ) (names : List String)
    (mult : List (String × ℚ)) (contexto : Option String) : List ℚ :=
  List.zipWith
    (fun s n => s * (lookup mult (get_tipo_respuesta n)).getD 1
      * contextMult (mult_contexto_of contexto) n) scores names

/-! ### Adjusted ranks (ejecutar_escenario, src/escenarios_prescriptivos.py)

`np.argsort(scores_ajustados)[::-1]` is modelled as a deterministic sort of
the (index, score) pairs ascending by (score, index) lexicographically —
i.e. a stable ascending argsort — then reversed.  The rank-assignment loop
`for rank, idx in enumerate(indices_ordenados, 1): ranks[idx] = rank` is
embedded as `assignRanksAux`. -/

/-- Insert into an ascending list, by a Bool comparison. -/
def insertAsc {α : Type} (le : α → α → Bool) (a : α) : List α → List α
  | [] => [a]
  | b :: t => if le a b then a :: b :: t else b :: insertAsc le a t

/-- Insertion sort, ascending by `le`. -/
def insertionSort {α : Type} (le : α → α → Bool) : List α → List α
  | [] => []
  | a :: t => insertAsc le a (insertionSort le t)

/-- The lexicographic (score, index) comparison of two enumerated scores. -/
def lexLe (p q : ℕ × ℚ) : Bool :=
  decide (p.2 < q.2 ∨ (p.2 = q.2 ∧ p.1 ≤ q.1))

/-- `np.argsort(scores)[::-1]` under the stable-sort model. -/
def argsort_desc (scores : List ℚ) : List ℕ :=
  ((insertionSort lexLe scores.enum).map Prod.fst).reverse

/-- The rank-assignment loop: `acc[idx] = rank`, rank counting up from 1. -/
def assignRanksAux : List ℕ → ℕ → List ℕ → List ℕ
  | [], _, acc => acc
  | idx :: rest, rank, acc => assignRanksAux rest (rank + 1) (acc.set idx rank)

/-- ranks_ajustados as ejecutar_escenario computes them from the adjusted
scores. -/
def ranks_ajustados (scores : List ℚ) : List ℕ :=
  assignRanksAux (argsort_desc scores) 1 (List.replicate scores.length 0)

/-- The four operators check_condition supports. -/
def validOp (op : String) : Prop :=
  op = "<" ∨ op = "<=" ∨ op = ">" ∨ op = ">="

/-- The Boolean value check_condition returns on a supported operator. -/
def checkPure (v : ℚ) (op : String) (th : ℚ) : Bool :=
  if op = "<" then decide (v < th)
  else if op = "<=" then decide (v ≤ th)
  else if op = ">" then decide (v > th)
  else decide (v ≥ th)

/-- The value a cell of build_indicator_matrix takes when no ValueError is
raised. -/
def cellPure (indicator_values : List (String × ℚ))
    (thresholds : Option (List (String × ThresholdCfg)))
    (rules : List Rule) (ind : String) : ℚ :=
  match rules.reverse.find? (fun r => r.indicator == ind) with
  | none => 0
  | some rule =>
    match lookup indicator_values ind with
    | none => 0
    | some val =>
      match thresholds with
      | some ths =>
        match lookup ths ind with
        | some cfg => if checkPure val cfg.op cfg.threshold then rule.weight else 0
        | none => rule.weight
      | none => rule.weight

/-- Concrete inputs for the C2 witness. -/
def wVals : List (String × ℚ) := [("i", 5)]

/-- Concrete strategies for the C2 witness (the second has no linked
indicators). -/
def wCfg : List (String × List Rule) := [("e", [⟨"i", 3⟩]), ("z", [])]

/-- Concrete indicator columns for the C2 witness. -/
def wInds : List String := ["i"]

/-- Concrete threshold table for the C2 witness. -/
def wThs : List (String × ThresholdCfg) := [("i", ⟨">=", 4⟩)]

/-! ### Helper lemmas on listMin / listMax -/

lemma foldl_min_le_init (l : List ℚ) : ∀ a : ℚ, l.foldl min a ≤ a := by
  induction l with
  | nil => intro a; simp
  | cons c t ih =>
    intro a
    simp only [List.foldl_cons]
    exact le_trans (ih (min a c)) (min_le_left a c)

lemma foldl_min_le_mem (l : List ℚ) : ∀ (a x : ℚ), x ∈ l → l.foldl min a ≤ x := by
  induction l with
  | nil => intro a x hx; exact absurd hx (List.not_mem_nil x)
  | cons c t ih =>
    intro a x hx
    simp only [List.foldl_cons]
    rcases List.mem_cons.mp hx with rfl | hx
    · exact le_trans (foldl_min_le_init t (min a x)) (min_le_right a x)
    · exact ih (min a c) x hx

lemma listMin_le (l : List ℚ) (x : ℚ) (hx : x ∈ l) : listMin l ≤ x := by
  cases l with
  | nil => exact absurd hx (List.not_mem_nil x)
  | cons c t =>
    rcases List.mem_cons.mp hx with rfl | hx
    · exact foldl_min_le_init t x
    · exact foldl_min_le_mem t c x hx

lemma init_le_foldl_max (l : List ℚ) : ∀ a : ℚ, a ≤ l.foldl max a := by
  induction l with
  | nil => intro a; simp
  | cons c t ih =>
    intro a
    simp only [List.foldl_cons]
    exact le_trans (le_max_left a c) (ih (max a c))

lemma mem_le_foldl_max (l : List ℚ) : ∀ (a x : ℚ), x ∈ l → x ≤ l.foldl max a := by
  induction l with
  | nil => intro a x hx; exact absurd hx (List.not_mem_nil x)
  | cons c t ih =>
    intro a x hx
    simp only [List.foldl_cons]
    rcases List.mem_cons.mp hx with rfl | hx
    · exact le_trans (le_max_right a x) (init_le_foldl_max t (max a x))
    · exact ih (max a c) x hx

lemma le_listMax (l : List ℚ) (x : ℚ) (hx : x ∈ l) : x ≤ listMax l := by
  cases l with
  | nil => exact absurd hx (List.not_mem_nil x)
  | cons c t =>
    rcases List.mem_cons.mp hx with rfl | hx
    · exact init_le_foldl_max t x
    · exact mem_le_foldl_max t c x hx

lemma foldl_min_mem (l : List ℚ) : ∀ a : ℚ, l.foldl min a = a ∨ l.foldl min a ∈ l := by
  induction l with
  | nil => intro a; left; rfl
  | cons c t ih =>
    intro a
    simp only [List.foldl_cons]
    rcases ih (min a c) with h | h
    · rw [h]
      rcases min_choice a c with h' | h'
      · left; exact h'
      · right; rw [h']; exact List.mem_cons_self c t
    · right; exact List.mem_cons_of_mem c h

lemma foldl_max_mem (l : List ℚ) : ∀ a : ℚ, l.foldl max a = a ∨ l.foldl max a ∈ l := by
  induction l with
  | nil => intro a; left; rfl
  | cons c t ih =>
    intro a
    simp only [List.foldl_cons]
    rcases ih (max a c) with h | h
    · rw [h]
      rcases max_choice a c with h' | h'
      · left; exact h'
      · right; rw [h']; exact List.mem_cons_self c t
    · right; exact List.mem_cons_of_mem c h

lemma listMin_mem (l : List ℚ) (h : l ≠ []) : listMin l ∈ l := by
  cases l with
  | nil => exact absurd rfl h
  | cons c t =>
    rcases foldl_min_mem t c with h' | h'
    · rw [show listMin (c :: t) = t.foldl min c from rfl, h']
      exact List.mem_cons_self c t
    · exact List.mem_cons_of_mem c h'

lemma listMax_mem (l : List ℚ) (h : l ≠ []) : listMax l ∈ l := by
  cases l with
  | nil => exact absurd rfl h
  | cons c t =>
    rcases foldl_max_mem t c with h' | h'
    · rw [show listMax (c :: t) = t.foldl max c from rfl, h']
      exact List.mem_cons_self c t
    · exact List.mem_cons_of_mem c h'

lemma listMin_le_listMax (l : List ℚ) (h : l ≠ []) : listMin l ≤ listMax l :=
  listMin_le l (listMax l) (listMax_mem l h)

/-! ### C3 — parse_threshold on the spec's examples -/

/-- C3: parse_threshold returns exactly the spec's example outputs:
("< 70%") ↦ ("<", 70.0); ("≥ 50") ↦ (">=", 50.0);
("Tipo II (≥ 6 semanas)") ↦ (">=", 6.0); ("") ↦ (None, None). -/
theorem parse_threshold_examples :
    parse_threshold ("< 70%".toList) = some ("<", 70)
    ∧ parse_threshold ("≥ 50".toList) = some (">=", 50)
    ∧ parse_threshold ("Tipo II (≥ 6 semanas)".toList) = some (">=", 6)
    ∧ parse_threshold ("".toList) = none :=
  ⟨by decide, by decide, by decide, by decide⟩

/-! ### C5 — check_condition -/

/-- C5: check_condition reports the alarming region of each of the four
operators (including both boundary cases at the threshold itself), raises
ValueError exactly when the operator is none of the four, and maps a missing
value to False for every operator string without raising. -/
theorem check_condition_spec (v th : ℚ) (op : String) :
    check_condition (some v) "<" th = .ok (decide (v < th))
    ∧ check_condition (some v) "<=" th = .ok (decide (v ≤ th))
    ∧ check_condition (some v) ">" th = .ok (decide (th < v))
    ∧ check_condition (some v) ">=" th = .ok (decide (th ≤ v))
    ∧ check_condition (some th) ">=" th = .ok true
    ∧ check_condition (some th) ">" th = .ok false
    ∧ ((∃ msg, check_condition (some v) op th = .error msg)
        ↔ (op ≠ "<" ∧ op ≠ "<=" ∧ op ≠ ">" ∧ op ≠ ">="))
    ∧ check_condition none op th = .ok false := by
  refine ⟨by simp [check_condition], by simp [check_condition],
    by simp [check_condition], by simp [check_condition],
    by simp [check_condition], by simp [check_condition], ?_,
    by simp [check_condition]⟩
  constructor
  · rintro ⟨msg, hmsg⟩
    refine ⟨?_, ?_, ?_, ?_⟩ <;> rintro rfl <;> simp [check_condition] at hmsg
  · rintro ⟨h1, h2, h3, h4⟩
    exact ⟨"Operador no soportado: " ++ op,
      by simp [check_condition, h1, h2, h3, h4]⟩

/-! ### C10 — unknown severity level -/

lemma lookup_eq_none {α : Type} (t : List (String × α)) (k : String) :
    lookup t k = none ↔ ∀ p ∈ t, p.1 ≠ k := by
  simp [lookup, List.find?_eq_none]

/-- C10: a severity level outside the four known tiers leaves the score
vector completely unchanged — no multipliers, no re-normalisation, no
error. -/
theorem aplicar_nivel_desconocido (scores : List ℚ) (names : List String)
    (ctx : Option String) (nivel : String)
    (h : nivel ∉ (["bajo_riesgo", "riesgo_moderado", "alto_riesgo", "emergencia"] : List String)) :
    aplicar_multiplicador_urgencia scores names nivel ctx = scores := by
  have hl : lookup MULTIPLICADORES_URGENCIA nivel = none := by
    rw [lookup_eq_none]
    intro p hp he
    apply h
    rw [MULTIPLICADORES_URGENCIA] at hp
    simp only [List.mem_cons, List.not_mem_nil, or_false] at hp
    rcases hp with rfl | rfl | rfl | rfl <;> rw [← he] <;> simp
  simp [aplicar_multiplicador_urgencia, hl]

/-- C10 witness at the concrete unknown level "critico". -/
theorem aplicar_nivel_desconocido_witness :
    aplicar_multiplicador_urgencia [1, 2] ["a", "b"] "critico" none = [1, 2] :=
  aplicar_nivel_desconocido [1, 2] ["a", "b"] none "critico" (by decide)

/-! ### C6 — normalize_criterion -/

/-- C6: on a nonempty vector (maximize = True) every output entry lies in
[0, 1]; an all-identical vector (the all-zero one included) maps to all ones
of the same length; otherwise the output is the min-max scaling. -/
theorem normalize_criterion_spec (values : List ℚ) (h : values ≠ []) :
    (normalize_criterion values true).length = values.length
    ∧ (∀ x ∈ normalize_criterion values true, 0 ≤ x ∧ x ≤ 1)
    ∧ ((∀ x ∈ values, ∀ y ∈ values, x = y) →
        normalize_criterion values true = values.map fun _ => 1)
    ∧ (listMax values ≠ listMin values →
        normalize_criterion values true =
          values.map fun x => (x - listMin values) / (listMax values - listMin values)) := by
  have hlen : ¬(values.length = 0) := fun e => h (List.length_eq_zero.mp e)
  by_cases hd : listMax values = listMin values
  · have he : normalize_criterion values true = values.map fun _ => 1 := by
      simp [normalize_criterion, hlen, hd]
    refine ⟨by rw [he]; exact values.length_map _, ?_, fun _ => he, fun hne => absurd hd hne⟩
    intro x hx
    rw [he] at hx
    rcases List.mem_map.mp hx with ⟨y, _, rfl⟩
    norm_num
  · have hlt : listMin values < listMax values :=
      lt_of_le_of_ne (listMin_le_listMax values h) (Ne.symm hd)
    have he : normalize_criterion values true =
        values.map fun x => (x - listMin values) / (listMax values - listMin values) := by
      simp [normalize_criterion, hlen, hd]
    refine ⟨by rw [he]; exact values.length_map _, ?_, ?_, fun _ => he⟩
    · intro x hx
      rw [he] at hx
      rcases List.mem_map.mp hx with ⟨y, hy, rfl⟩
      have h0 : (0 : ℚ) < listMax values - listMin values := by linarith
      constructor
      · exact div_nonneg (by linarith [listMin_le values y hy]) (le_of_lt h0)
      · rw [div_le_one h0]
        linarith [le_listMax values y hy]
    · intro hall
      exact absurd (hall (listMax values) (listMax_mem values h)
        (listMin values) (listMin_mem values h)) hd

/-- C6 witness at the concrete vector [2, 5]. -/
theorem normalize_criterion_spec_witness :
    (normalize_criterion [2, 5] true).length = ([2, 5] : List ℚ).length
    ∧ (∀ x ∈ normalize_criterion [2, 5] true, 0 ≤ x ∧ x ≤ 1)
    ∧ ((∀ x ∈ ([2, 5] : List ℚ), ∀ y ∈ ([2, 5] : List ℚ), x = y) →
        normalize_criterion [2, 5] true = ([2, 5] : List ℚ).map fun _ => 1)
    ∧ (listMax [2, 5] ≠ listMin [2, 5] →
        normalize_criterion [2, 5] true =
          ([2, 5] : List ℚ).map fun x => (x - listMin [2, 5]) / (listMax [2, 5] - listMin [2, 5])) :=
  normalize_criterion_spec [2, 5] (by decide)

/-! ### C7 — normalize_strategy_weights -/

lemma normalize_weights_sum (rules : List Rule)
    (ht : (rules.map Rule.weight).sum ≠ 0) :
    ((normalize_weights rules).map Rule.weight).sum = 1 := by
  unfold normalize_weights
  rw [if_neg ht, List.map_map]
  have hc : (Rule.weight ∘ fun r : Rule => { r with weight := r.weight / (rules.map Rule.weight).sum })
      = fun r : Rule => r.weight * ((rules.map Rule.weight).sum)⁻¹ := by
    funext r
    simp [div_eq_mul_inv]
  rw [hc, List.sum_map_mul_right, mul_inv_cancel₀ ht]

/-- C7: after normalize_strategy_weights, a strategy whose weights have a
nonzero total (in particular one with nonnegative weights, at least one of
them nonzero) carries a rule list whose weights sum to exactly 1; a strategy
whose total is exactly 0 is left unchanged. -/
theorem normalize_strategy_weights_sum (cfg : List (String × List Rule))
    (est : String) (rules : List Rule) (h : (est, rules) ∈ cfg) :
    (est, normalize_weights rules) ∈ normalize_strategy_weights cfg
    ∧ ((rules.map Rule.weight).sum ≠ 0 →
        ((normalize_weights rules).map Rule.weight).sum = 1)
    ∧ ((∀ r ∈ rules, 0 ≤ r.weight) → (∃ r ∈ rules, r.weight ≠ 0) →
        ((normalize_weights rules).map Rule.weight).sum = 1)
    ∧ ((rules.map Rule.weight).sum = 0 → normalize_weights rules = rules) := by
  refine ⟨?_, normalize_weights_sum rules, ?_, ?_⟩
  · exact List.mem_map_of_mem (fun p => (p.1, normalize_weights p.2)) h
  · rintro hnn ⟨r, hr, hr0⟩
    apply normalize_weights_sum
    have hle : r.weight ≤ (rules.map Rule.weight).sum := by
      apply List.single_le_sum
      · intro x hx
        rcases List.mem_map.mp hx with ⟨r', hr', rfl⟩
        exact hnn r' hr'
      · exact List.mem_map_of_mem Rule.weight hr
    have : 0 < r.weight := lt_of_le_of_ne (hnn r hr) (Ne.symm hr0)
    intro he
    rw [he] at hle
    linarith
  · intro ht
    unfold normalize_weights
    rw [if_pos ht]

/-- C7 witness at a concrete two-rule strategy with total weight 8. -/
theorem normalize_strategy_weights_sum_witness :
    (("e", normalize_weights [⟨"i", 2⟩, ⟨"j", 6⟩]) ∈
        normalize_strategy_weights [("e", [⟨"i", 2⟩, ⟨"j", 6⟩])])
    ∧ ((([⟨"i", 2⟩, ⟨"j", 6⟩] : List Rule).map Rule.weight).sum ≠ 0 →
        ((normalize_weights [⟨"i", 2⟩, ⟨"j", 6⟩]).map Rule.weight).sum = 1)
    ∧ ((∀ r ∈ ([⟨"i", 2⟩, ⟨"j", 6⟩] : List Rule), 0 ≤ r.weight) →
        (∃ r ∈ ([⟨"i", 2⟩, ⟨"j", 6⟩] : List Rule), r.weight ≠ 0) →
        ((normalize_weights [⟨"i", 2⟩, ⟨"j", 6⟩]).map Rule.weight).sum = 1)
    ∧ ((([⟨"i", 2⟩, ⟨"j", 6⟩] : List Rule).map Rule.weight).sum = 0 →
        normalize_weights [⟨"i", 2⟩, ⟨"j", 6⟩] = [⟨"i", 2⟩, ⟨"j", 6⟩]) :=
  normalize_strategy_weights_sum [("e", [⟨"i", 2⟩, ⟨"j", 6⟩])] "e"
    [⟨"i", 2⟩, ⟨"j", 6⟩] (by decide)

/-! ### C4 — the bare-number fallback of parse_threshold -/

lemma isWhitespace_eq_false_of_isDigit {c : Char} (hd : c.isDigit = true) :
    c.isWhitespace = false := by
  by_contra h
  have hw : c.isWhitespace = true := by rwa [Bool.not_eq_false] at h
  simp only [Char.isWhitespace, Bool.or_eq_true, decide_eq_true_eq] at hw
  rcases hw with ((rfl | rfl) | rfl) | rfl <;> exact absurd hd (by decide)

lemma mem_dropWhile_of_mem {p : Char → Bool} {l : List Char} {c : Char}
    (hc : c ∈ l) (hp : p c = false) : c ∈ l.dropWhile p := by
  have hsplit := List.takeWhile_append_dropWhile p l
  rcases List.mem_append.mp (by rw [hsplit]; exact hc) with h | h
  · have ht := List.mem_takeWhile_imp h
    rw [hp] at ht
    exact absurd ht (by decide)
  · exact h

lemma mem_pyStrip_of_mem {s : List Char} {c : Char}
    (hc : c ∈ s) (hw : c.isWhitespace = false) : c ∈ pyStrip s := by
  unfold pyStrip
  rw [List.mem_reverse]
  refine mem_dropWhile_of_mem ?_ hw
  rw [List.mem_reverse]
  exact mem_dropWhile_of_mem hc hw

lemma mem_of_mem_pyStrip {s : List Char} {c : Char} (hc : c ∈ pyStrip s) : c ∈ s := by
  unfold pyStrip at hc
  rw [List.mem_reverse] at hc
  have h1 := List.Sublist.mem hc (List.dropWhile_sublist _)
  rw [List.mem_reverse] at h1
  exact List.Sublist.mem h1 (List.dropWhile_sublist _)

lemma mem_normalizeUnicode_of_mem {l : List Char} {c : Char}
    (hc : c ∈ l) (h1 : c ≠ '≤') (h2 : c ≠ '≥') : c ∈ normalizeUnicode l := by
  induction l with
  | nil => exact absurd hc (List.not_mem_nil c)
  | cons a t ih =>
    rw [normalizeUnicode]
    rcases List.mem_cons.mp hc with rfl | hmem
    · rw [if_neg h1, if_neg h2]
      exact List.mem_cons_self c _
    · by_cases ha1 : a = '≤'
      · rw [if_pos ha1]
        exact List.mem_cons_of_mem _ (List.mem_cons_of_mem _ (ih hmem))
      · by_cases ha2 : a = '≥'
        · rw [if_neg ha1, if_pos ha2]
          exact List.mem_cons_of_mem _ (List.mem_cons_of_mem _ (ih hmem))
        · rw [if_neg ha1, if_neg ha2]
          exact List.mem_cons_of_mem _ (ih hmem)

lemma mem_of_mem_normalizeUnicode {l : List Char} {c : Char}
    (hc : c ∈ normalizeUnicode l) (h1 : c ≠ '<') (h2 : c ≠ '=') (h3 : c ≠ '>') :
    c ∈ l := by
  induction l with
  | nil => rw [normalizeUnicode] at hc; exact hc
  | cons a t ih =>
    rw [normalizeUnicode] at hc
    by_cases ha1 : a = '≤'
    · rw [if_pos ha1] at hc
      rcases List.mem_cons.mp hc with rfl | hc'
      · exact absurd rfl h1
      rcases List.mem_cons.mp hc' with rfl | hc''
      · exact absurd rfl h2
      exact List.mem_cons_of_mem a (ih hc'')
    · by_cases ha2 : a = '≥'
      · rw [if_neg ha1, if_pos ha2] at hc
        rcases List.mem_cons.mp hc with rfl | hc'
        · exact absurd rfl h3
        rcases List.mem_cons.mp hc' with rfl | hc''
        · exact absurd rfl h2
        exact List.mem_cons_of_mem a (ih hc'')
      · rw [if_neg ha1, if_neg ha2] at hc
        rcases List.mem_cons.mp hc with rfl | hc'
        · exact List.mem_cons_self c t
        · exact List.mem_cons_of_mem a (ih hc')

lemma matchNumber_eq_none_iff (l : List Char) :
    matchNumber l = none ↔ l.takeWhile Char.isDigit = [] := by
  constructor
  · intro h
    by_contra hne
    unfold matchNumber at h
    rw [if_neg hne] at h
    split at h
    · split at h <;> exact Option.noConfusion h
    · exact Option.noConfusion h
  · intro h
    unfold matchNumber
    rw [if_pos h]

lemma re_search_matchNumber_eq_none (t : List Char) :
    re_search matchNumber t = none ↔ ∀ c ∈ t, c.isDigit = false := by
  induction t with
  | nil => simp [re_search]
  | cons c rest ih =>
    rw [re_search]
    by_cases hc : c.isDigit = true
    · have hne : (c :: rest).takeWhile Char.isDigit ≠ [] := by
        simp [List.takeWhile_cons, hc]
      have hm : matchNumber (c :: rest) ≠ none := by
        rw [Ne, matchNumber_eq_none_iff]; exact hne
      cases hmv : matchNumber (c :: rest) with
      | none => exact absurd hmv hm
      | some v =>
        simp only []
        constructor
        · intro h; exact Option.noConfusion h
        · intro hall
          have := hall c (List.mem_cons_self c rest)
          rw [hc] at this
          exact absurd this (by decide)
    · have hcf : c.isDigit = false := by rwa [Bool.not_eq_true] at hc
      have hm : matchNumber (c :: rest) = none := by
        rw [matchNumber_eq_none_iff]
        simp [List.takeWhile_cons, hcf]
      rw [hm]
      simp only [List.forall_mem_cons, hcf, true_and]
      exact ih

/-- C4: when none of the three operator patterns matches the normalised
input, parse_threshold returns (">=", n) for the first bare number n if a
digit is present anywhere, and (None, None) if the input holds no digit at
all. -/
theorem parse_threshold_fallback (s : List Char)
    (h1 : re_search pat1 (normalizeUnicode (pyStrip s)) = none)
    (h2 : re_search pat2 (normalizeUnicode (pyStrip s)) = none)
    (h3 : re_search pat3 (normalizeUnicode (pyStrip s)) = none) :
    ((∃ c ∈ s, c.isDigit = true) →
      ∃ v, re_search matchNumber (normalizeUnicode (pyStrip s)) = some v
        ∧ parse_threshold s = some (">=", v))
    ∧ ((∀ c ∈ s, c.isDigit = false) → parse_threshold s = none) := by
  constructor
  · rintro ⟨c, hcs, hcd⟩
    have hs : ¬(s = []) := by rintro rfl; exact absurd hcs (List.not_mem_nil c)
    have hct : c ∈ normalizeUnicode (pyStrip s) :=
      mem_normalizeUnicode_of_mem
        (mem_pyStrip_of_mem hcs (isWhitespace_eq_false_of_isDigit hcd))
        (fun e => absurd hcd (by subst e; decide))
        (fun e => absurd hcd (by subst e; decide))
    have hnn : re_search matchNumber (normalizeUnicode (pyStrip s)) ≠ none := by
      rw [Ne, re_search_matchNumber_eq_none]
      intro hall
      rw [hall c hct] at hcd
      exact absurd hcd (by decide)
    cases hv : re_search matchNumber (normalizeUnicode (pyStrip s)) with
    | none => exact absurd hv hnn
    | some v =>
      refine ⟨v, rfl, ?_⟩
      rw [parse_threshold, if_neg hs]
      simp only [h1, h2, h3, hv]
  · intro hall
    by_cases hs : s = []
    · subst hs; rfl
    · have hnone : re_search matchNumber (normalizeUnicode (pyStrip s)) = none := by
        rw [re_search_matchNumber_eq_none]
        intro c hct
        by_contra hcd'
        have hcd : c.isDigit = true := by simpa using hcd'
        have hcp : c ∈ pyStrip s :=
          mem_of_mem_normalizeUnicode hct
            (fun e => absurd hcd (by subst e; decide))
            (fun e => absurd hcd (by subst e; decide))
            (fun e => absurd hcd (by subst e; decide))
        have := hall c (mem_of_mem_pyStrip hcp)
        rw [this] at hcd
        exact absurd hcd (by decide)
      rw [parse_threshold, if_neg hs]
      simp only [h1, h2, h3, hnone]

/-- C4 witness at the concrete input "abc 7 xyz" (no operator pattern, one
bare number). -/
theorem parse_threshold_fallback_witness :
    ((∃ c ∈ "abc 7 xyz".toList, c.isDigit = true) →
      ∃ v, re_search matchNumber (normalizeUnicode (pyStrip "abc 7 xyz".toList)) = some v
        ∧ parse_threshold "abc 7 xyz".toList = some (">=", v))
    ∧ ((∀ c ∈ "abc 7 xyz".toList, c.isDigit = false) →
        parse_threshold "abc 7 xyz".toList = none) :=
  parse_threshold_fallback "abc 7 xyz".toList (by decide) (by decide) (by decide)

/-! ### C1 — urgency multipliers invert the immediate/preventive order -/

lemma CONTEXTO_vals_pos : ∀ p ∈ CONTEXTO_ESCENARIOS, ∀ q ∈ p.2, 0 < q.2 := by
  intro p hp
  fin_cases hp <;> (intro q hq; fin_cases hq <;> norm_num)

lemma mult_contexto_of_pos (ctx : Option String) :
    ∀ q ∈ mult_contexto_of ctx, 0 < q.2 := by
  intro q hq
  cases ctx with
  | none => exact absurd hq (List.not_mem_nil q)
  | some c =>
    rw [show mult_contexto_of (some c) = (lookup CONTEXTO_ESCENARIOS c).getD []
      from rfl] at hq
    cases hfind : lookup CONTEXTO_ESCENARIOS c with
    | none => rw [hfind] at hq; exact absurd hq (List.not_mem_nil q)
    | some l =>
      rw [hfind] at hq
      unfold lookup at hfind
      obtain ⟨p, hpfind, hp2⟩ := Option.map_eq_some'.mp hfind
      exact CONTEXTO_vals_pos p (List.mem_of_find?_eq_some hpfind) q (hp2 ▸ hq)

lemma contextMult_pos (ctx : Option String) (name : String) :
    0 < contextMult (mult_contexto_of ctx) name := by
  unfold contextMult
  cases hfind : (mult_contexto_of ctx).find?
      (fun p => isSubstr (p.1.toList.map Char.toLower) (name.toList.map Char.toLower)) with
  | none => norm_num
  | some p => exact mult_contexto_of_pos ctx p (List.mem_of_find?_eq_some hfind)

/-- Evaluation of aplicar_multiplicador_urgencia on a two-strategy vector. -/
lemma aplicar_two (s1 s2 : ℚ) (n1 n2 : String) (nivel : String)
    (ctx : Option String) (m : List (String × ℚ))
    (hm : lookup MULTIPLICADORES_URGENCIA nivel = some m) :
    aplicar_multiplicador_urgencia [s1, s2] [n1, n2] nivel ctx =
      (if 0 < max (s1 * (lookup m (get_tipo_respuesta n1)).getD 1 * contextMult (mult_contexto_of ctx) n1)
            (s2 * (lookup m (get_tipo_respuesta n2)).getD 1 * contextMult (mult_contexto_of ctx) n2) then
        [(s1 * (lookup m (get_tipo_respuesta n1)).getD 1 * contextMult (mult_contexto_of ctx) n1)
            / max (s1 * (lookup m (get_tipo_respuesta n1)).getD 1 * contextMult (mult_contexto_of ctx) n1)
                (s2 * (lookup m (get_tipo_respuesta n2)).getD 1 * contextMult (mult_contexto_of ctx) n2),
          (s2 * (lookup m (get_tipo_respuesta n2)).getD 1 * contextMult (mult_contexto_of ctx) n2)
            / max (s1 * (lookup m (get_tipo_respuesta n1)).getD 1 * contextMult (mult_contexto_of ctx) n1)
                (s2 * (lookup m (get_tipo_respuesta n2)).getD 1 * contextMult (mult_contexto_of ctx) n2)]
      else
        [s1 * (lookup m (get_tipo_respuesta n1)).getD 1 * contextMult (mult_contexto_of ctx) n1,
          s2 * (lookup m (get_tipo_respuesta n2)).getD 1 * contextMult (mult_contexto_of ctx) n2]) := by
  unfold aplicar_multiplicador_urgencia
  rw [hm]
  simp [listMax]

/-- C1: with equal, strictly positive base scores and equal context
multipliers, an "inmediata" strategy ends strictly above a "preventiva" one
at level "emergencia" (2.5 vs 0.2) and strictly below it at "bajo_riesgo"
(0.2 vs 1.8); the division by the vector maximum preserves both strict
orderings. -/
theorem urgencia_invierte_orden (s : ℚ) (hs : 0 < s) (n1 n2 : String)
    (h1 : get_tipo_respuesta n1 = "inmediata")
    (h2 : get_tipo_respuesta n2 = "preventiva")
    (ctx : Option String)
    (hc : contextMult (mult_contexto_of ctx) n1 = contextMult (mult_contexto_of ctx) n2) :
    ((aplicar_multiplicador_urgencia [s, s] [n1, n2] "emergencia" ctx).getD 1 0
      < (aplicar_multiplicador_urgencia [s, s] [n1, n2] "emergencia" ctx).getD 0 0)
    ∧ ((aplicar_multiplicador_urgencia [s, s] [n1, n2] "bajo_riesgo" ctx).getD 0 0
      < (aplicar_multiplicador_urgencia [s, s] [n1, n2] "bajo_riesgo" ctx).getD 1 0) := by
  have hcpos : 0 < contextMult (mult_contexto_of ctx) n2 := contextMult_pos ctx n2
  constructor
  · have hm : lookup MULTIPLICADORES_URGENCIA "emergencia" = some
        [("inmediata", 2.5), ("activa", 0.9), ("preventiva", 0.2),
          ("coordinacion", 0.7), ("monitoreo", 0.3)] := rfl
    rw [aplicar_two s s n1 n2 "emergencia" ctx _ hm, h1, h2, hc]
    rw [show lookup [("inmediata", (2.5 : ℚ)), ("activa", 0.9), ("preventiva", 0.2),
        ("coordinacion", 0.7), ("monitoreo", 0.3)] "inmediata" = some 2.5 from rfl]
    rw [show lookup [("inmediata", (2.5 : ℚ)), ("activa", 0.9), ("preventiva", 0.2),
        ("coordinacion", 0.7), ("monitoreo", 0.3)] "preventiva" = some 0.2 from rfl]
    simp only [Option.getD_some]
    have hab : s * 0.2 * contextMult (mult_contexto_of ctx) n2
        < s * 2.5 * contextMult (mult_contexto_of ctx) n2 := by
      nlinarith [mul_pos hs hcpos]
    have hapos : 0 < s * 2.5 * contextMult (mult_contexto_of ctx) n2 := by
      nlinarith [mul_pos hs hcpos]
    rw [max_eq_left (le_of_lt hab), if_pos hapos]
    simp only [List.getD, List.getElem?_cons_zero, List.getElem?_cons_succ,
      Option.getD_some]
    exact (div_lt_div_iff_of_pos_right hapos).mpr hab
  · have hm : lookup MULTIPLICADORES_URGENCIA "bajo_riesgo" = some
        [("inmediata", 0.2), ("activa", 0.5), ("preventiva", 1.8),
          ("coordinacion", 1.5), ("monitoreo", 1.7)] := rfl
    rw [aplicar_two s s n1 n2 "bajo_riesgo" ctx _ hm, h1, h2, hc]
    rw [show lookup [("inmediata", (0.2 : ℚ)), ("activa", 0.5), ("preventiva", 1.8),
        ("coordinacion", 1.5), ("monitoreo", 1.7)] "inmediata" = some 0.2 from rfl]
    rw [show lookup [("inmediata", (0.2 : ℚ)), ("activa", 0.5), ("preventiva", 1.8),
        ("coordinacion", 1.5), ("monitoreo", 1.7)] "preventiva" = some 1.8 from rfl]
    simp only [Option.getD_some]
    have hab : s * 0.2 * contextMult (mult_contexto_of ctx) n2
        < s * 1.8 * contextMult (mult_contexto_of ctx) n2 := by
      nlinarith [mul_pos hs hcpos]
    have hbpos : 0 < s * 1.8 * contextMult (mult_contexto_of ctx) n2 := by
      nlinarith [mul_pos hs hcpos]
    rw [max_eq_right (le_of_lt hab), if_pos hbpos]
    simp only [List.getD, List.getElem?_cons_zero, List.getElem?_cons_succ,
      Option.getD_some]
    exact (div_lt_div_iff_of_pos_right hbpos).mpr hab

/-- C1 witness: two concrete strategies of the taxonomy (an "inmediata" one
and a "preventiva" one), base score 1, no situational context. -/
theorem urgencia_invierte_orden_witness :
    ((aplicar_multiplicador_urgencia [1, 1]
        ["Aplicar adulticidas químicos como malatión o deltametrina para el control rápido del vector adulto en espacios abiertos.",
          "Promover prácticas preventivas sostenibles mediante campañas educativas, cambio de comportamiento social y vigilancia participativa."]
        "emergencia" none).getD 1 0
      < (aplicar_multiplicador_urgencia [1, 1]
        ["Aplicar adulticidas químicos como malatión o deltametrina para el control rápido del vector adulto en espacios abiertos.",
          "Promover prácticas preventivas sostenibles mediante campañas educativas, cambio de comportamiento social y vigilancia participativa."]
        "emergencia" none).getD 0 0)
    ∧ ((aplicar_multiplicador_urgencia [1, 1]
        ["Aplicar adulticidas químicos como malatión o deltametrina para el control rápido del vector adulto en espacios abiertos.",
          "Promover prácticas preventivas sostenibles mediante campañas educativas, cambio de comportamiento social y vigilancia participativa."]
        "bajo_riesgo" none).getD 0 0
      < (aplicar_multiplicador_urgencia [1, 1]
        ["Aplicar adulticidas químicos como malatión o deltametrina para el control rápido del vector adulto en espacios abiertos.",
          "Promover prácticas preventivas sostenibles mediante campañas educativas, cambio de comportamiento social y vigilancia participativa."]
        "bajo_riesgo" none).getD 1 0) :=
  urgencia_invierte_orden 1 (by norm_num)
    "Aplicar adulticidas químicos como malatión o deltametrina para el control rápido del vector adulto en espacios abiertos."
    "Promover prácticas preventivas sostenibles mediante campañas educativas, cambio de comportamiento social y vigilancia participativa."
    (by decide) (by decide) none rfl

/-! ### C8 — the adjusted-score formula and its re-normalisation -/

lemma map_zip_eq_zipWith {α β γ : Type} (f : α → β → γ) :
    ∀ (as : List α) (bs : List β),
      ((as.zip bs).map fun p => f p.1 p.2) = List.zipWith f as bs := by
  intro as
  induction as with
  | nil => intro bs; simp
  | cons a t ih =>
    intro bs
    cases bs with
    | nil => simp
    | cons b u => simp [ih]

lemma assigned_eq (scores : List ℚ) (names : List String)
    (mult : List (String × ℚ)) (ctx : Option String) :
    ((scores.zip names).map fun p =>
        p.1 * (lookup mult (get_tipo_respuesta p.2)).getD 1
          * contextMult (mult_contexto_of ctx) p.2)
      = adjusted_raw scores names mult ctx :=
  map_zip_eq_zipWith
    (fun s n => s * (lookup mult (get_tipo_respuesta n)).getD 1
      * contextMult (mult_contexto_of ctx) n) scores names

lemma aplicar_eq_of_lookup (scores : List ℚ) (names : List String)
    (nivel : String) (ctx : Option String) (mult : List (String × ℚ))
    (hm : lookup MULTIPLICADORES_URGENCIA nivel = some mult)
    (hl : scores.length = names.length) :
    aplicar_multiplicador_urgencia scores names nivel ctx =
      if 0 < (adjusted_raw scores names mult ctx).length then
        if 0 < listMax (adjusted_raw scores names mult ctx) then
          (adjusted_raw scores names mult ctx).map
            fun x => x / listMax (adjusted_raw scores names mult ctx)
        else adjusted_raw scores names mult ctx
      else adjusted_raw scores names mult ctx := by
  have hz : scores.length - (scores.zip names).length = 0 := by
    rw [List.length_zip, hl, Nat.min_self, Nat.sub_self]
  unfold aplicar_multiplicador_urgencia
  rw [hm]
  simp only [hz, List.replicate, List.append_nil, assigned_eq]

/-- C8: for equal-length inputs and a known severity level, the output of
aplicar_multiplicador_urgencia is the per-strategy product
base × severity multiplier × context multiplier, divided by the vector
maximum when that is positive, and returned unchanged otherwise — all zero
whenever the entries are nonnegative and the maximum is 0. -/
theorem aplicar_multiplicador_formula (scores : List ℚ) (names : List String)
    (nivel : String) (ctx : Option String) (mult : List (String × ℚ))
    (hm : lookup MULTIPLICADORES_URGENCIA nivel = some mult)
    (hl : scores.length = names.length) :
    (0 < listMax (adjusted_raw scores names mult ctx) →
      aplicar_multiplicador_urgencia scores names nivel ctx
        = (adjusted_raw scores names mult ctx).map
            fun x => x / listMax (adjusted_raw scores names mult ctx))
    ∧ (listMax (adjusted_raw scores names mult ctx) ≤ 0 →
      aplicar_multiplicador_urgencia scores names nivel ctx
        = adjusted_raw scores names mult ctx)
    ∧ ((∀ x ∈ adjusted_raw scores names mult ctx, 0 ≤ x) →
      listMax (adjusted_raw scores names mult ctx) = 0 →
      ∀ x ∈ aplicar_multiplicador_urgencia scores names nivel ctx, x = 0) := by
  have key := aplicar_eq_of_lookup scores names nivel ctx mult hm hl
  have hsecond : listMax (adjusted_raw scores names mult ctx) ≤ 0 →
      aplicar_multiplicador_urgencia scores names nivel ctx
        = adjusted_raw scores names mult ctx := by
    intro hle
    rw [key]
    by_cases hlen : 0 < (adjusted_raw scores names mult ctx).length
    · rw [if_pos hlen, if_neg (not_lt.mpr hle)]
    · rw [if_neg hlen]
  refine ⟨?_, hsecond, ?_⟩
  · intro hpos
    have hne : 0 < (adjusted_raw scores names mult ctx).length := by
      cases hraw : adjusted_raw scores names mult ctx with
      | nil => rw [hraw] at hpos; norm_num [listMax] at hpos
      | cons a t => simp
    rw [key, if_pos hne, if_pos hpos]
  · intro hnn hmax x hx
    rw [hsecond (le_of_eq hmax)] at hx
    have h1 := hnn x hx
    have h2 := le_listMax _ x hx
    rw [hmax] at h2
    exact le_antisymm h2 h1

/-- C8 witness at a concrete two-strategy call with level "emergencia" and
no context. -/
theorem aplicar_multiplicador_formula_witness :
    (0 < listMax (adjusted_raw [1, 2] ["a", "b"]
        [("inmediata", 2.5), ("activa", 0.9), ("preventiva", 0.2),
          ("coordinacion", 0.7), ("monitoreo", 0.3)] none) →
      aplicar_multiplicador_urgencia [1, 2] ["a", "b"] "emergencia" none
        = (adjusted_raw [1, 2] ["a", "b"]
            [("inmediata", 2.5), ("activa", 0.9), ("preventiva", 0.2),
              ("coordinacion", 0.7), ("monitoreo", 0.3)] none).map
            fun x => x / listMax (adjusted_raw [1, 2] ["a", "b"]
              [("inmediata", 2.5), ("activa", 0.9), ("preventiva", 0.2),
                ("coordinacion", 0.7), ("monitoreo", 0.3)] none))
    ∧ (listMax (adjusted_raw [1, 2] ["a", "b"]
        [("inmediata", 2.5), ("activa", 0.9), ("preventiva", 0.2),
          ("coordinacion", 0.7), ("monitoreo", 0.3)] none) ≤ 0 →
      aplicar_multiplicador_urgencia [1, 2] ["a", "b"] "emergencia" none
        = adjusted_raw [1, 2] ["a", "b"]
            [("inmediata", 2.5), ("activa", 0.9), ("preventiva", 0.2),
              ("coordinacion", 0.7), ("monitoreo", 0.3)] none)
    ∧ ((∀ x ∈ adjusted_raw [1, 2] ["a", "b"]
        [("inmediata", 2.5), ("activa", 0.9), ("preventiva", 0.2),
          ("coordinacion", 0.7), ("monitoreo", 0.3)] none, 0 ≤ x) →
      listMax (adjusted_raw [1, 2] ["a", "b"]
        [("inmediata", 2.5), ("activa", 0.9), ("preventiva", 0.2),
          ("coordinacion", 0.7), ("monitoreo", 0.3)] none) = 0 →
      ∀ x ∈ aplicar_multiplicador_urgencia [1, 2] ["a", "b"] "emergencia" none, x = 0) :=
  aplicar_multiplicador_formula [1, 2] ["a", "b"] "emergencia" none
    [("inmediata", 2.5), ("activa", 0.9), ("preventiva", 0.2),
      ("coordinacion", 0.7), ("monitoreo", 0.3)] rfl rfl

/-! ### C2 — build_indicator_matrix cell semantics -/



lemma check_condition_ok (v : ℚ) (op : String) (th : ℚ) (h : validOp op) :
    check_condition (some v) op th = .ok (checkPure v op th) := by
  rcases h with rfl | rfl | rfl | rfl <;> simp [check_condition, checkPure]


lemma cellE_eq_ok (vals : List (String × ℚ)) (ths : List (String × ThresholdCfg))
    (rules : List Rule) (ind : String) (hv : ∀ p ∈ ths, validOp p.2.op) :
    cellE vals (some ths) rules ind = .ok (cellPure vals (some ths) rules ind) := by
  cases hfind : rules.reverse.find? (fun r => r.indicator == ind) with
  | none => simp only [cellE, cellPure, hfind]
  | some rule =>
    cases hval : lookup vals ind with
    | none => simp only [cellE, cellPure, hfind, hval]
    | some val =>
      cases hth : lookup ths ind with
      | none => simp only [cellE, cellPure, hfind, hval, hth]
      | some cfg =>
        have hcfg : validOp cfg.op := by
          unfold lookup at hth
          obtain ⟨p, hp, hp2⟩ := Option.map_eq_some'.mp hth
          exact hp2 ▸ hv p (List.mem_of_find?_eq_some hp)
        cases hb : checkPure val cfg.op cfg.threshold <;>
          (simp only [cellE, cellPure, hfind, hval, hth,
            check_condition_ok val cfg.op cfg.threshold hcfg, hb]
           rfl)

lemma buildRowE_eq_ok (vals : List (String × ℚ)) (ths : List (String × ThresholdCfg))
    (rules : List Rule) (inds : List String) (hv : ∀ p ∈ ths, validOp p.2.op) :
    buildRowE vals (some ths) rules inds
      = .ok (inds.map (cellPure vals (some ths) rules)) := by
  induction inds with
  | nil => rfl
  | cons i rest ih =>
    rw [buildRowE, cellE_eq_ok vals ths rules i hv, ih]
    simp

lemma buildRowsE_eq_ok (vals : List (String × ℚ)) (ths : List (String × ThresholdCfg))
    (inds : List String) (cfg : List (String × List Rule))
    (hv : ∀ p ∈ ths, validOp p.2.op) :
    buildRowsE vals (some ths) inds cfg
      = .ok (cfg.map fun p => inds.map (cellPure vals (some ths) p.2)) := by
  induction cfg with
  | nil => rfl
  | cons p rest ih =>
    obtain ⟨nm, rules⟩ := p
    rw [buildRowsE, buildRowE_eq_ok vals ths rules inds hv, ih]
    simp

lemma getD_map {α β : Type} (f : α → β) (l : List α) (i : ℕ)
    (hi : i < l.length) (d : α) (e : β) : (l.map f).getD i e = f (l.getD i d) := by
  rw [List.getD_eq_getElem?_getD, List.getD_eq_getElem?_getD, List.getElem?_map,
    List.getElem?_eq_getElem hi]
  simp

lemma sum_map_zero (inds : List String) : (inds.map fun _ => (0 : ℚ)).sum = 0 := by
  induction inds with
  | nil => rfl
  | cons i rest ih => simp [ih]

/-- C2: with parsed (valid-operator) thresholds, build_indicator_matrix
succeeds and every cell is: 0 when the strategy does not reference the
indicator or the indicator has no value; the rule's weight gated by
check_condition when a threshold row exists; the rule's weight
unconditionally when none does.  Per-strategy compliance is the row sum, so
a strategy with an empty rule list has compliance 0. -/
theorem build_indicator_matrix_cells (vals : List (String × ℚ))
    (cfg : List (String × List Rule)) (inds : List String)
    (ths : List (String × ThresholdCfg))
    (hv : ∀ p ∈ ths, validOp p.2.op) :
    ∃ M, build_indicator_matrix vals cfg inds (some ths) = .ok (M, cfg.map Prod.fst)
      ∧ M.length = cfg.length
      ∧ (∀ i, i < cfg.length →
          (M.getD i []).length = inds.length
          ∧ ∀ j, j < inds.length →
            ((∀ r ∈ (cfg.getD i ("", [])).2, r.indicator ≠ inds.getD j "") →
              (M.getD i []).getD j 0 = 0)
            ∧ (lookup vals (inds.getD j "") = none →
              (M.getD i []).getD j 0 = 0)
            ∧ (∀ rule, (cfg.getD i ("", [])).2.reverse.find?
                  (fun r => r.indicator == inds.getD j "") = some rule →
                ∀ v, lookup vals (inds.getD j "") = some v →
                  (∀ tcfg, lookup ths (inds.getD j "") = some tcfg →
                    (M.getD i []).getD j 0
                      = if checkPure v tcfg.op tcfg.threshold then rule.weight else 0)
                  ∧ (lookup ths (inds.getD j "") = none →
                    (M.getD i []).getD j 0 = rule.weight)))
      ∧ (∀ i, i < cfg.length → (cfg.getD i ("", [])).2 = [] →
          (compliance_of M).getD i 0 = 0) := by
  refine ⟨cfg.map fun p => inds.map (cellPure vals (some ths) p.2), ?_, ?_, ?_, ?_⟩
  · unfold build_indicator_matrix
    rw [buildRowsE_eq_ok vals ths inds cfg hv]
  · exact cfg.length_map _
  · intro i hi
    have hrow : (cfg.map fun p => inds.map (cellPure vals (some ths) p.2)).getD i []
        = inds.map (cellPure vals (some ths) (cfg.getD i ("", [])).2) := by
      rw [getD_map (fun p : String × List Rule => inds.map (cellPure vals (some ths) p.2))
        cfg i hi ("", []) []]
    refine ⟨by rw [hrow]; exact inds.length_map _, ?_⟩
    intro j hj
    have hcell : ((cfg.map fun p => inds.map (cellPure vals (some ths) p.2)).getD i []).getD j 0
        = cellPure vals (some ths) (cfg.getD i ("", [])).2 (inds.getD j "") := by
      rw [hrow, getD_map (cellPure vals (some ths) (cfg.getD i ("", [])).2) inds j hj "" 0]
    rw [hcell]
    refine ⟨?_, ?_, ?_⟩
    · intro hno
      have hfind : (cfg.getD i ("", [])).2.reverse.find?
          (fun r => r.indicator == inds.getD j "") = none := by
        rw [List.find?_eq_none]
        intro r hr
        simp only [beq_iff_eq]
        exact hno r (List.mem_reverse.mp hr)
      simp only [cellPure, hfind]
    · intro hval
      cases hfind : (cfg.getD i ("", [])).2.reverse.find?
          (fun r => r.indicator == inds.getD j "") with
      | none => simp only [cellPure, hfind]
      | some rule => simp only [cellPure, hfind, hval]
    · intro rule hfind v hval
      constructor
      · intro tcfg hth
        simp only [cellPure, hfind, hval, hth]
      · intro hth
        simp only [cellPure, hfind, hval, hth]
  · intro i hi hempty
    have hlen : i < (cfg.map fun p => inds.map (cellPure vals (some ths) p.2)).length := by
      rw [cfg.length_map]; exact hi
    unfold compliance_of
    rw [getD_map List.sum _ i hlen [] 0,
      getD_map (fun p : String × List Rule => inds.map (cellPure vals (some ths) p.2))
        cfg i hi ("", []) []]
    have : ∀ ind, cellPure vals (some ths) (cfg.getD i ("", [])).2 ind = 0 := by
      intro ind
      simp only [cellPure, hempty, List.reverse_nil, List.find?_nil]
    calc (inds.map (cellPure vals (some ths) (cfg.getD i ("", [])).2)).sum
        = (inds.map fun _ => (0 : ℚ)).sum := by
          congr 1
          exact List.map_congr_left fun ind _ => this ind
      _ = 0 := sum_map_zero inds


/-- C2 witness at a one-indicator, two-strategy configuration (the second
strategy has no linked indicators). -/
theorem build_indicator_matrix_cells_witness :
    ∃ M, build_indicator_matrix wVals wCfg wInds (some wThs) = .ok (M, wCfg.map Prod.fst)
      ∧ M.length = wCfg.length
      ∧ (∀ i, i < wCfg.length →
          (M.getD i []).length = wInds.length
          ∧ ∀ j, j < wInds.length →
            ((∀ r ∈ (wCfg.getD i ("", [])).2, r.indicator ≠ wInds.getD j "") →
              (M.getD i []).getD j 0 = 0)
            ∧ (lookup wVals (wInds.getD j "") = none →
              (M.getD i []).getD j 0 = 0)
            ∧ (∀ rule, (wCfg.getD i ("", [])).2.reverse.find?
                  (fun r => r.indicator == wInds.getD j "") = some rule →
                ∀ v, lookup wVals (wInds.getD j "") = some v →
                  (∀ tcfg, lookup wThs (wInds.getD j "") = some tcfg →
                    (M.getD i []).getD j 0
                      = if checkPure v tcfg.op tcfg.threshold then rule.weight else 0)
                  ∧ (lookup wThs (wInds.getD j "") = none →
                    (M.getD i []).getD j 0 = rule.weight)))
      ∧ (∀ i, i < wCfg.length → (wCfg.getD i ("", [])).2 = [] →
          (compliance_of M).getD i 0 = 0) :=
  build_indicator_matrix_cells wVals wCfg wInds wThs
    (by intro p hp; fin_cases hp; right; right; right; rfl)

/-! ### C9 — the adjusted ranks -/

lemma perm_insertAsc {α : Type} (le : α → α → Bool) (a : α) :
    ∀ l : List α, (insertAsc le a l).Perm (a :: l) := by
  intro l
  induction l with
  | nil => exact List.Perm.refl _
  | cons b t ih =>
    rw [insertAsc]
    by_cases h : le a b = true
    · rw [if_pos h]
    · rw [if_neg h]
      exact (List.Perm.cons b ih).trans (List.Perm.swap a b t)

lemma perm_insertionSort {α : Type} (le : α → α → Bool) :
    ∀ l : List α, (insertionSort le l).Perm l := by
  intro l
  induction l with
  | nil => exact List.Perm.refl _
  | cons a t ih =>
    rw [insertionSort]
    exact (perm_insertAsc le a _).trans (List.Perm.cons a ih)

lemma pairwise_insertAsc {α : Type} (le : α → α → Bool)
    (htrans : ∀ x y z, le x y = true → le y z = true → le x z = true)
    (htot : ∀ x y, le x y = true ∨ le y x = true) (a : α) :
    ∀ l, l.Pairwise (fun x y => le x y = true) →
      (insertAsc le a l).Pairwise (fun x y => le x y = true) := by
  intro l
  induction l with
  | nil => intro _; simp [insertAsc]
  | cons b t ih =>
    intro hp
    rcases List.pairwise_cons.mp hp with ⟨hb, ht⟩
    rw [insertAsc]
    by_cases h : le a b = true
    · rw [if_pos h]
      refine List.pairwise_cons.mpr ⟨?_, hp⟩
      intro x hx
      rcases List.mem_cons.mp hx with rfl | hx
      · exact h
      · exact htrans a b x h (hb x hx)
    · rw [if_neg h]
      have hba : le b a = true := (htot a b).resolve_left h
      refine List.pairwise_cons.mpr ⟨?_, ih ht⟩
      intro x hx
      rcases List.mem_cons.mp ((perm_insertAsc le a t).mem_iff.mp hx) with rfl | hx'
      · exact hba
      · exact hb x hx'

lemma sorted_insertionSort {α : Type} (le : α → α → Bool)
    (htrans : ∀ x y z, le x y = true → le y z = true → le x z = true)
    (htot : ∀ x y, le x y = true ∨ le y x = true) :
    ∀ l : List α, (insertionSort le l).Pairwise (fun x y => le x y = true) := by
  intro l
  induction l with
  | nil => simp [insertionSort]
  | cons a t ih =>
    rw [insertionSort]
    exact pairwise_insertAsc le htrans htot a _ ih

lemma lexLe_trans : ∀ x y z : ℕ × ℚ,
    lexLe x y = true → lexLe y z = true → lexLe x z = true := by
  intro x y z hxy hyz
  simp only [lexLe, decide_eq_true_eq] at hxy hyz ⊢
  rcases hxy with h1 | ⟨h1, h2⟩ <;> rcases hyz with h3 | ⟨h3, h4⟩
  · left; exact lt_trans h1 h3
  · left; exact h3 ▸ h1
  · left; exact h1 ▸ h3
  · right; exact ⟨h1.trans h3, le_trans h2 h4⟩

lemma lexLe_total : ∀ x y : ℕ × ℚ, lexLe x y = true ∨ lexLe y x = true := by
  intro x y
  simp only [lexLe, decide_eq_true_eq]
  rcases lt_trichotomy x.2 y.2 with h | h | h
  · left; left; exact h
  · rcases le_total x.1 y.1 with h' | h'
    · left; right; exact ⟨h, h'⟩
    · right; right; exact ⟨h.symm, h'⟩
  · right; left; exact h

lemma enum_nodup (scores : List ℚ) : scores.enum.Nodup := by
  have h : (scores.enum.map Prod.fst).Nodup := by
    rw [List.enum_map_fst]
    exact List.nodup_range _
  exact List.Nodup.of_map Prod.fst h

lemma mem_enum_snd (scores : List ℚ) (p : ℕ × ℚ) (hp : p ∈ scores.enum) :
    p.2 = scores.getD p.1 0 ∧ p.1 < scores.length := by
  have h := List.mem_enum_iff_getElem?.mp hp
  constructor
  · rw [List.getD_eq_getElem?_getD, h]
    rfl
  · obtain ⟨hlt, _⟩ := List.getElem?_eq_some.mp h
    exact hlt

lemma argsort_desc_perm (scores : List ℚ) :
    (argsort_desc scores).Perm (List.range scores.length) := by
  unfold argsort_desc
  have h2 := (perm_insertionSort lexLe scores.enum).map Prod.fst
  rw [List.enum_map_fst] at h2
  exact (List.reverse_perm _).trans h2

lemma argsort_desc_nodup (scores : List ℚ) : (argsort_desc scores).Nodup :=
  ((argsort_desc_perm scores).nodup_iff).mpr (List.nodup_range _)

lemma argsort_desc_mem (scores : List ℚ) (p : ℕ) :
    p ∈ argsort_desc scores ↔ p < scores.length := by
  rw [(argsort_desc_perm scores).mem_iff, List.mem_range]

lemma argsort_desc_length (scores : List ℚ) :
    (argsort_desc scores).length = scores.length := by
  rw [(argsort_desc_perm scores).length_eq, List.length_range]

lemma argsort_desc_pairwise (scores : List ℚ) :
    (argsort_desc scores).Pairwise (fun a b =>
      scores.getD b 0 < scores.getD a 0
        ∨ (scores.getD b 0 = scores.getD a 0 ∧ b < a)) := by
  unfold argsort_desc
  rw [List.pairwise_reverse, List.pairwise_map]
  have hS := sorted_insertionSort lexLe lexLe_trans lexLe_total scores.enum
  have hnd : (insertionSort lexLe scores.enum).Nodup :=
    ((perm_insertionSort lexLe scores.enum).nodup_iff).mpr (enum_nodup scores)
  have hsub : ∀ p ∈ insertionSort lexLe scores.enum, p ∈ scores.enum :=
    fun p hp => (perm_insertionSort lexLe scores.enum).mem_iff.mp hp
  refine List.Pairwise.imp_of_mem ?_ (hS.and hnd)
  intro p q hp hq hand
  obtain ⟨hle, hne⟩ := hand
  obtain ⟨hp2, _⟩ := mem_enum_snd scores p (hsub p hp)
  obtain ⟨hq2, _⟩ := mem_enum_snd scores q (hsub q hq)
  simp only [lexLe, decide_eq_true_eq] at hle
  rcases hle with h | ⟨h1, h2⟩
  · left
    rw [← hp2, ← hq2]
    exact h
  · rcases lt_or_eq_of_le h2 with h3 | h3
    · right
      rw [← hp2, ← hq2]
      exact ⟨h1, h3⟩
    · exact absurd (Prod.ext h3 h1) hne

lemma assignRanksAux_length : ∀ (order : List ℕ) (rank : ℕ) (acc : List ℕ),
    (assignRanksAux order rank acc).length = acc.length := by
  intro order
  induction order with
  | nil => intro rank acc; rfl
  | cons idx rest ih =>
    intro rank acc
    rw [assignRanksAux, ih, List.length_set]

lemma assignRanksAux_not_mem : ∀ (order : List ℕ) (rank : ℕ) (acc : List ℕ) (p : ℕ),
    p ∉ order → (assignRanksAux order rank acc)[p]? = acc[p]? := by
  intro order
  induction order with
  | nil => intro rank acc p _; rfl
  | cons idx rest ih =>
    intro rank acc p hp
    rw [assignRanksAux]
    have h1 : p ∉ rest := fun h => hp (List.mem_cons_of_mem idx h)
    have h2 : idx ≠ p := fun h => hp (h ▸ List.mem_cons_self idx rest)
    rw [ih (rank + 1) (acc.set idx rank) p h1, List.getElem?_set_ne h2]

lemma assignRanksAux_mem : ∀ (order : List ℕ) (rank : ℕ) (acc : List ℕ) (p : ℕ),
    order.Nodup → p ∈ order → p < acc.length →
    (assignRanksAux order rank acc)[p]? = some (rank + order.indexOf p) := by
  intro order
  induction order with
  | nil => intro rank acc p _ hp _; exact absurd hp (List.not_mem_nil p)
  | cons idx rest ih =>
    intro rank acc p hnd hp hlen
    rcases List.nodup_cons.mp hnd with ⟨hidx, hrest⟩
    rw [assignRanksAux]
    rcases List.mem_cons.mp hp with rfl | hp'
    · rw [assignRanksAux_not_mem rest (rank + 1) (acc.set p rank) p hidx,
        List.getElem?_set_self hlen, List.indexOf_cons_self, Nat.add_zero]
    · have hne : idx ≠ p := fun h => hidx (h ▸ hp')
      rw [ih (rank + 1) (acc.set idx rank) p hrest hp'
          (by rw [List.length_set]; exact hlen),
        List.indexOf_cons_ne rest hne]
      congr 1
      omega

lemma ranks_getD (scores : List ℚ) (p : ℕ) (hp : p < scores.length) :
    (ranks_ajustados scores).getD p 0 = (argsort_desc scores).indexOf p + 1 := by
  unfold ranks_ajustados
  rw [List.getD_eq_getElem?_getD,
    assignRanksAux_mem (argsort_desc scores) 1 (List.replicate scores.length 0) p
      (argsort_desc_nodup scores) ((argsort_desc_mem scores p).mpr hp)
      (by rw [List.length_replicate]; exact hp)]
  simp [Nat.add_comm]

lemma ranks_eq_map (scores : List ℚ) :
    ranks_ajustados scores
      = (List.range scores.length).map fun p => (argsort_desc scores).indexOf p + 1 := by
  apply List.ext_getElem?
  intro k
  by_cases hk : k < scores.length
  · have hk' : k < (List.range scores.length).length := by
      rw [List.length_range]; exact hk
    rw [List.getElem?_map, List.getElem?_eq_getElem hk', List.getElem_range]
    show (ranks_ajustados scores)[k]? = some ((argsort_desc scores).indexOf k + 1)
    unfold ranks_ajustados
    rw [assignRanksAux_mem (argsort_desc scores) 1 (List.replicate scores.length 0) k
        (argsort_desc_nodup scores) ((argsort_desc_mem scores k).mpr hk)
        (by rw [List.length_replicate]; exact hk)]
    rw [Nat.add_comm]
  · have h1 : (ranks_ajustados scores).length ≤ k := by
      unfold ranks_ajustados
      rw [assignRanksAux_length, List.length_replicate]
      omega
    have h2 : ((List.range scores.length).map
        fun p => (argsort_desc scores).indexOf p + 1).length ≤ k := by
      rw [List.length_map, List.length_range]
      omega
    rw [List.getElem?_eq_none h1, List.getElem?_eq_none h2]

lemma indexOf_inj_of_mem {l : List ℕ} {x y : ℕ} (hx : x ∈ l) (hy : y ∈ l)
    (hxy : l.indexOf x = l.indexOf y) : x = y :=
  (List.indexOf_inj hx hy).mp hxy

lemma indexOf_map_range_perm (scores : List ℚ) :
    ((List.range scores.length).map fun p => (argsort_desc scores).indexOf p).Perm
      (List.range scores.length) := by
  have hnodup : ((List.range scores.length).map
      fun p => (argsort_desc scores).indexOf p).Nodup := by
    refine List.Nodup.map_on ?_ (List.nodup_range _)
    intro x hx y hy hxy
    exact indexOf_inj_of_mem
      ((argsort_desc_mem scores x).mpr (List.mem_range.mp hx))
      ((argsort_desc_mem scores y).mpr (List.mem_range.mp hy)) hxy
  have hsub : ((List.range scores.length).map
      fun p => (argsort_desc scores).indexOf p) ⊆ List.range scores.length := by
    intro x hx
    rcases List.mem_map.mp hx with ⟨p, hp, rfl⟩
    rw [List.mem_range]
    calc (argsort_desc scores).indexOf p < (argsort_desc scores).length :=
        List.indexOf_lt_length.mpr
          ((argsort_desc_mem scores p).mpr (List.mem_range.mp hp))
      _ = scores.length := argsort_desc_length scores
  refine (hnodup.subperm hsub).perm_of_length_le ?_
  rw [List.length_map, List.length_range]

lemma pairwise_rel_of_indexOf_lt {R : ℕ → ℕ → Prop} {l : List ℕ}
    (hpw : l.Pairwise R) (p q : ℕ) (hp : p ∈ l) (hq : q ∈ l)
    (hlt : l.indexOf p < l.indexOf q) : R p q := by
  have hp' : l.indexOf p < l.length := List.indexOf_lt_length.mpr hp
  have hq' : l.indexOf q < l.length := List.indexOf_lt_length.mpr hq
  have h := List.pairwise_iff_getElem.mp hpw (l.indexOf p) (l.indexOf q) hp' hq' hlt
  rwa [List.getElem_indexOf hp', List.getElem_indexOf hq'] at h

/-- C9 (amended): the adjusted ranks are a dense permutation of 1..N ordered
by strictly descending adjusted score, and a tie between equal adjusted
scores is broken by giving the better (smaller) rank to the strategy with
the LARGER original index — the reverse of the input order (np.argsort
ascending, modelled as stable, then reversed). -/
theorem ranks_ajustados_spec (scores : List ℚ) :
    (ranks_ajustados scores).Perm ((List.range scores.length).map fun k => k + 1)
    ∧ ∀ i j, i < scores.length → j < scores.length → i ≠ j →
        ((ranks_ajustados scores).getD i 0 < (ranks_ajustados scores).getD j 0 ↔
          (scores.getD j 0 < scores.getD i 0
            ∨ (scores.getD j 0 = scores.getD i 0 ∧ j < i))) := by
  constructor
  · rw [ranks_eq_map scores]
    have hcomp : ((List.range scores.length).map
          fun p => (argsort_desc scores).indexOf p + 1)
        = ((List.range scores.length).map
            fun p => (argsort_desc scores).indexOf p).map fun k => k + 1 := by
      rw [List.map_map]
      rfl
    rw [hcomp]
    exact (indexOf_map_range_perm scores).map fun k => k + 1
  · intro i j hi hj hne
    have hmi : i ∈ argsort_desc scores := (argsort_desc_mem scores i).mpr hi
    have hmj : j ∈ argsort_desc scores := (argsort_desc_mem scores j).mpr hj
    rw [ranks_getD scores i hi, ranks_getD scores j hj]
    constructor
    · intro hlt
      exact pairwise_rel_of_indexOf_lt (argsort_desc_pairwise scores) i j hmi hmj
        (by omega)
    · intro hbetter
      rcases Nat.lt_trichotomy ((argsort_desc scores).indexOf i)
          ((argsort_desc scores).indexOf j) with h | h | h
      · omega
      · exact absurd (indexOf_inj_of_mem hmi hmj h) hne
      · exfalso
        have hji := pairwise_rel_of_indexOf_lt (argsort_desc_pairwise scores)
          j i hmj hmi h
        rcases hbetter with hb | ⟨hb1, hb2⟩ <;> rcases hji with hj' | ⟨hj1, hj2⟩
        · exact absurd (lt_trans hb hj') (lt_irrefl _)
        · rw [hj1] at hb
          exact absurd hb (lt_irrefl _)
        · rw [hb1] at hj'
          exact absurd hj' (lt_irrefl _)
        · omega

/-- C9 counterexample: on the tied adjusted scores [1, 1] the code gives the
FIRST input strategy rank 2 and the second rank 1 — not the stable-by-input
-order ranks [1, 2] the claim asserts. -/
theorem ranks_ajustados_tie_cex :
    ranks_ajustados [(1 : ℚ), 1] = [2, 1]
      ∧ ranks_ajustados [(1 : ℚ), 1] ≠ [1, 2] :=
  ⟨by decide, by decide⟩

end Mapas
